import Mathlib

/-!
Shallow embedding of the ts-validate field-pipeline validation engine
(`Validator` class and its helper functions) together with proofs about
the behaviour its specification describes.

JavaScript runtime values are modelled by the inductive `JSVal`, the
values a checker invocation can produce by `Res`, and the raised
JavaScript errors relevant to the engine by `JSErr`.  The engine itself
(`validate`, `matchObj`, `matchEveryOrFail`, `validateFieldRaw`,
`pushError`, `renameChildFields`, `setAggregateMessage`, `castV`,
`aggregateErrors`, `assertNonNullObject`) is translated function by
function from the source.  Source helpers whose names begin with an
underscore are embedded without it (and the source `_cast` as `castV`),
since those spellings are unavailable here.
-/

namespace TsValidate

set_option maxRecDepth 100000

/-- Model of the JavaScript runtime values the engine manipulates. -/
inductive JSVal where
  | vnull
  | vundefined
  | vbool (b : Bool)
  | vnum (n : Int)
  | vstr (s : String)
  | vobj (fields : List (String × JSVal))
  | varr (elems : List JSVal)

/-- Model of the raised JavaScript values the engine creates or handles:
`ValidationError` (message, field, offending value), `AggregateError`
(message, inner errors), `TypeError` (message), and the bare `throw null`
sentinel used by the pipeline executor. -/
inductive JSErr where
  | validationError (msg : String) (field : String) (value : JSVal)
  | aggregateError (msg : String) (errors : List JSErr)
  | typeError (msg : String)
  | nullErr

/-- `obj[key]` on a structural object: value of the first binding of
`key`, or `undefined` when the key is absent. -/
def objGet (fields : List (String × JSVal)) (k : String) : JSVal :=
  match fields with
  | [] => .vundefined
  | (k', v) :: rest => if k' = k then v else objGet rest k

/-- `obj[key] = v`: overwrite the existing binding in place, or append a
new binding when the key was absent. -/
def objSet (fields : List (String × JSVal)) (k : String) (v : JSVal) :
    List (String × JSVal) :=
  match fields with
  | [] => [(k, v)]
  | (k', v') :: rest =>
    if k' = k then (k, v) :: rest else (k', v') :: objSet rest k v

mutual

/-- JavaScript string coercion of a value, as in the template literal
the error synthesis uses. -/
def jsToString : JSVal → String
  | .vnull => "null"
  | .vundefined => "undefined"
  | .vbool b => if b then "true" else "false"
  | .vnum n => toString n
  | .vstr s => s
  | .vobj _ => "[object Object]"
  | .varr es => jsArrToString es

/-- Array-to-string coercion: elements joined by commas, with null and
undefined elements rendered as empty strings. -/
def jsArrToString : List JSVal → String
  | [] => ""
  | [e] =>
    match e with
    | .vnull => ""
    | .vundefined => ""
    | e => jsToString e
  | e :: rest =>
    (match e with
     | .vnull => ""
     | .vundefined => ""
     | e => jsToString e) ++ "," ++ jsArrToString rest

end

/-- Truthiness of a JavaScript value (`!!v`). -/
def jsTruthy : JSVal → Bool
  | .vnull => false
  | .vundefined => false
  | .vbool b => b
  | .vnum n => n != 0
  | .vstr s => s != ""
  | .vobj _ => true
  | .varr _ => true

/-- What a checker invocation can do: return a value, return an
unresolved Promise, or throw. -/
inductive Res where
  | ret (v : JSVal)
  | retPromise
  | thrown (e : JSErr)

/-- A checker function of the validation spec. -/
abbrev Checker := JSVal → Res

/-- One field's binding in a validation spec together with the other
fields: the `Validations<T>` object, declaration-ordered. -/
abbrev Validations := List (String × List Checker)

/-- `res === true` of the engine dispatch. -/
def isTrueV : JSVal → Bool
  | .vbool true => true
  | _ => false

/-- `converted !== undefined` of the write-back guard, negated. -/
def isUndefV : JSVal → Bool
  | .vundefined => true
  | _ => false

/-- The `.message` property of a raised value, with optional chaining:
`null` has no message. -/
def errMsgStr : JSErr → String
  | .validationError m _ _ => m
  | .aggregateError m _ => m
  | .typeError m => m
  | .nullErr => ""

/-- The conversion-envelope probe `isConversionFn` combined with reading
`.converted`: `typeof n === 'object' && n.isConversion === true`.
A returned `null` has `typeof null === 'object'`, so the subsequent
property access on `null` throws a TypeError instead of reaching the
sentinel `throw null`. -/
def probeConversion (v : JSVal) : Except JSErr (Option JSVal) :=
  match v with
  | .vnull => .error (.typeError "Cannot read properties of null")
  | .vobj fs =>
    match objGet fs "isConversion" with
    | .vbool true => .ok (some (objGet fs "converted"))
    | _ => .ok none
  | _ => .ok none

/-- The dispatch the pipeline executor performs on one checker result:
Promise or `true` continues unchanged, a conversion envelope yields the
converted value, anything else raises (`throw null`, or the TypeError
produced by probing a returned `null`). -/
def stepChecker (fn : Checker) (x : JSVal) : Except JSErr (Option JSVal) :=
  match fn x with
  | .thrown e => .error e
  | .retPromise => .ok none
  | .ret v =>
    if isTrueV v then .ok none
    else
      match probeConversion v with
      | .error e => .error e
      | .ok (some c) => .ok (some c)
      | .ok none => .error .nullErr

/-- The loop body of `validateFieldRaw`: runs the remaining checkers on
the current value `x`, carrying the `converted` variable (initially
`undefined`). -/
def validateFieldGo (fns : List Checker) (x : JSVal) (converted : JSVal) :
    Except JSErr JSVal :=
  match fns with
  | [] => .ok converted
  | fn :: rest =>
    match stepChecker fn x with
    | .error e => .error e
    | .ok none => validateFieldGo rest x converted
    | .ok (some c) => validateFieldGo rest c c

/-- `Validator.validateFieldRaw`: runs one field's ordered checker
chain starting from the field's current value; returns the last
converted value (`undefined` when no conversion occurred), raises on the
first failing checker. -/
def validateFieldRaw (fns : List Checker) (x : JSVal) : Except JSErr JSVal :=
  validateFieldGo fns x .vundefined

/-- `assertNonNullObject`: the input-shape precondition of `validate`. -/
def assertNonNullObject : JSVal → Except JSErr Unit
  | .vnull => .error (.typeError "Unexpected null")
  | .varr _ => .error (.typeError "Cannot be an array")
  | .vobj _ => .ok ()
  | _ => .error (.typeError "Not an object")

/-- Boolean test that `pat` is an initial segment of `s`. -/
def isPre : List Char → List Char → Bool
  | [], _ => true
  | _ :: _, [] => false
  | a :: as, b :: bs => a = b && isPre as bs

/-- Greedy match of the regular expression pattern
quote, one-or-more non-newline characters, quote, colon
at the start of `s`; returns the length of the longest match. -/
def matchQLen (s : List Char) : Option Nat :=
  match s with
  | '"' :: rest =>
    let lim := (rest.takeWhile (fun c => c != '\n')).length
    (List.range (lim + 1)).reverse.findSome? (fun k =>
      if 1 ≤ k && isPre ['"', ':'] (rest.drop k) then some (k + 3) else none)
  | _ => none

/-- `String.replace` with that non-global regular expression: rewrite
the leftmost (greedily longest) match to `repl`, leave the rest. -/
def replaceFirst (repl : List Char) : List Char → List Char
  | [] => []
  | c :: rest =>
    match matchQLen (c :: rest) with
    | some n => repl ++ (c :: rest).drop n
    | none => c :: replaceFirst repl rest

/-- The message rewrite `renameChildFields` performs:
`err.message.replace(/".+":/, ...)` with the new field label. -/
def replaceFieldLabel (m : String) (f : String) : String :=
  ⟨replaceFirst ('"' :: f.data ++ ['"', ':']) m.data⟩

mutual

/-- `renameChildFields(field)` applied to one collected error: a
ValidationError gets `field ++ "."` prepended to its `field` and its
message label rewritten; an AggregateError has the rename applied to
every nested error; anything else is untouched. -/
def renameChild (field : String) : JSErr → JSErr
  | .validationError m f v =>
    .validationError (replaceFieldLabel m (field ++ "." ++ f))
      (field ++ "." ++ f) v
  | .aggregateError m es => .aggregateError m (renameList field es)
  | e => e

/-- `errs.forEach(renameChildFields(field))`. -/
def renameList (field : String) : List JSErr → List JSErr
  | [] => []
  | e :: rest => renameChild field e :: renameList field rest

end

/-- `pushError`: convert whatever a field's pipeline raised into the
collected error for that field and append it.  A ValidationError has its
`field` overwritten with the current field name; an AggregateError has
the current field name dot-prepended to every nested ValidationError;
any other raised value is wrapped into a fresh ValidationError whose
message embeds the field name, a 40-character-truncated rendering of the
offending value and, when the raised value carries a non-empty message,
that message in parentheses. -/
def pushError (err : JSErr) (field : String) (value : JSVal)
    (errors : List JSErr) : List JSErr :=
  match err with
  | .validationError m _ v => errors ++ [.validationError m field v]
  | .aggregateError m es => errors ++ [.aggregateError m (renameList field es)]
  | e =>
    let trimmedValue := (jsToString value).take 40
    let details :=
      if (errMsgStr e).length > 0 then " (" ++ errMsgStr e ++ ")" else ""
    let msg := "Validation failed for \"" ++ field ++ "\": "
      ++ trimmedValue ++ details
    errors ++ [.validationError msg field value]

/-- `Array.prototype.join('\n- ')` on the synthesized lines. -/
def joinDash : List String → String
  | [] => ""
  | [s] => s
  | s :: rest => s ++ "\n- " ++ joinDash rest

mutual

/-- `setAggregateMessage(err, first)`: recompute an AggregateError's
message from its (recursively recomputed) inner errors, joined by
newline-dash, prefixed with the multiple-errors header only when
`first` is true; leave non-aggregate errors unchanged. -/
def setAggregateMessage (e : JSErr) (first : Bool) : JSErr :=
  match e with
  | .aggregateError _ errs =>
    let errs' := setAggList errs
    .aggregateError
      ((if first then "Multiple errors occured:\n- " else "")
        ++ joinDash (errs'.map errMsgStr)) errs'
  | e => e

/-- The recursive message recomputation mapped over the inner errors. -/
def setAggList (es : List JSErr) : List JSErr :=
  match es with
  | [] => []
  | e :: rest => setAggregateMessage e false :: setAggList rest

end

/-- `castV`: one collected error is raised directly, several are raised
as one AggregateError with the synthesized message, none returns the
candidate. -/
def castV (obj : JSVal) (errors : List JSErr) : Except JSErr JSVal :=
  if errors.length = 1 then .error (errors.headD .nullErr)
  else if 1 < errors.length then
    .error (setAggregateMessage (.aggregateError "" errors) true)
  else .ok obj

/-- The field loop of `Validator.validate`: for each declared field run
the pipeline on the field's current slot; on success write the converted
value back unless it is `undefined`; on failure collect the error via
`pushError` and continue with the next field. -/
def validateCore (V : Validations) (fields : List (String × JSVal))
    (errors : List JSErr) : List (String × JSVal) × List JSErr :=
  match V with
  | [] => (fields, errors)
  | (field, fns) :: rest =>
    match validateFieldRaw fns (objGet fields field) with
    | .ok c =>
      validateCore rest (if isUndefV c then fields else objSet fields field c)
        errors
    | .error e =>
      validateCore rest fields (pushError e field (objGet fields field) errors)

/-- `Validator.validate`: assert the input shape, process every declared
field collecting errors, then `castV` the possibly mutated candidate.
(The final catch-all arm is unreachable: the shape assertion only
passes structural objects.) -/
def validate (V : Validations) (obj : JSVal) : Except JSErr JSVal :=
  match assertNonNullObject obj with
  | .error e => .error e
  | .ok _ =>
    match obj with
    | .vobj fields =>
      let r := validateCore V fields []
      castV (.vobj r.1) r.2
    | _ => .error .nullErr

/-- `Validator.match`: false for a non-object or `null` input, otherwise
the truthiness of a successful `validate`, with every raised error
absorbed into false. -/
def matchObj (V : Validations) (obj : JSVal) : Bool :=
  match obj with
  | .vnull => false
  | .vobj _ =>
    (match validate V obj with
     | .ok v => jsTruthy v
     | .error _ => false)
  | .varr _ =>
    (match validate V obj with
     | .ok v => jsTruthy v
     | .error _ => false)
  | _ => false

/-- `Validator.matchOrFail`: `validate` with its return value discarded,
yielding `true` on success. -/
def matchOrFail (V : Validations) (obj : JSVal) : Except JSErr Bool :=
  match validate V obj with
  | .ok _ => .ok true
  | .error e => .error e

/-- `objs.forEach(fn)` with a throwing callback: the loop aborts at the
first element whose call raises. -/
def forEachTry (objs : List JSVal) (fn : JSVal → Except JSErr JSVal) :
    Option JSErr :=
  match objs with
  | [] => none
  | o :: rest =>
    match fn o with
    | .error e => some e
    | .ok _ => forEachTry rest fn

/-- `aggregateErrors`: run `fn` over the elements inside a single
try/catch around the whole `forEach`; any caught error is rethrown
wrapped in an AggregateError.  (The guard raising on a `null` or
`undefined` argument is unrepresentable for a list argument.) -/
def aggregateErrors (objs : List JSVal) (fn : JSVal → Except JSErr JSVal) :
    Except JSErr Unit :=
  match forEachTry objs fn with
  | some e => .error (.aggregateError "" [e])
  | none => .ok ()

/-- `Validator.matchEveryOrFail`: validate every element through
`aggregateErrors`, return `true` when nothing was raised. -/
def matchEveryOrFail (V : Validations) (objs : List JSVal) :
    Except JSErr Bool :=
  match aggregateErrors objs (validate V) with
  | .error e => .error e
  | .ok _ => .ok true

/-! ### Concrete checkers from the helper library and the test suite -/

/-- `isNumber`: `typeof n === 'number'`. -/
def isNumberC : Checker := fun x =>
  match x with
  | .vnum _ => .ret (.vbool true)
  | _ => .ret (.vbool false)

/-- `isUndefined`: `n === undefined`. -/
def isUndefinedC : Checker := fun x =>
  match x with
  | .vundefined => .ret (.vbool true)
  | _ => .ret (.vbool false)

/-- `args.some((f) => f(x))` of the `union` combinator: stops at the
first truthy result; a raised error propagates out of the iteration. -/
def unionGo : List Checker → JSVal → Res
  | [], _ => .ret (.vbool false)
  | f :: rest, x =>
    match f x with
    | .thrown e => .thrown e
    | .retPromise => .ret (.vbool true)
    | .ret v => if jsTruthy v then .ret (.vbool true) else unionGo rest x

/-- The `union` combinator: logical OR of assertion functions. -/
def unionC (fs : List Checker) : Checker := fun x => unionGo fs x

/-- The recursive `isList` checker of the test suite: delegates to the
list validator through `matchOrFail`.  The fuel argument only bounds the
recursion depth; with enough fuel it behaves exactly like the source. -/
def isListC : Nat → Checker
  | 0 => fun _ => .thrown .nullErr
  | n + 1 => fun x =>
    match matchOrFail
        [("head", [isNumberC]),
         ("tail", [unionC [isUndefinedC, isListC n]])] x with
    | .ok _ => .ret (.vbool true)
    | .error e => .thrown e

/-- The `ListValidator` spec of the test suite:
`{ head: [isNumber], tail: [union(isUndefined, isList)] }`. -/
def listValidations (n : Nat) : Validations :=
  [("head", [isNumberC]), ("tail", [unionC [isUndefinedC, isListC n]])]

/-- The nested input of the error-message test:
`{ head: '1', tail: { head: '2', tail: { head: '3', tail: null } } }`. -/
def input3 : JSVal :=
  .vobj [("head", .vstr "1"),
         ("tail", .vobj [("head", .vstr "2"),
                         ("tail", .vobj [("head", .vstr "3"),
                                         ("tail", .vnull)])])]

/-- A converter checker whose conversion envelope carries `undefined`
as the converted value. -/
def convUndefC : Checker := fun _ =>
  .ret (.vobj [("isConversion", .vbool true), ("converted", .vundefined)])

/-- A converter in the style of `convert(toInt)`: converts the string
"4" or any number to a number, raises a TypeError otherwise. -/
def convNumC : Checker := fun x =>
  match x with
  | .vstr "4" =>
    .ret (.vobj [("isConversion", .vbool true), ("converted", .vnum 4)])
  | .vnum n =>
    .ret (.vobj [("isConversion", .vbool true), ("converted", .vnum n)])
  | _ => .thrown (.typeError "Cannot convert to an Int")

/-- A two-field inner validator used to build nested scenarios. -/
def innerV : Validations := [("a", [isNumberC]), ("b", [isNumberC])]

/-- A checker delegating to `innerV` through `matchOrFail`, as a
recursive validator does. -/
def delegC : Checker := fun x =>
  match matchOrFail innerV x with
  | .ok _ => .ret (.vbool true)
  | .error e => .thrown e

/-- A checker that returns `null`. -/
def retNullC : Checker := fun _ => .ret .vnull

/-- A checker that always returns `false`. -/
def alwaysFalseC : Checker := fun _ => .ret (.vbool false)

/-- A single-field validator requiring a number at key `a`. -/
def numV : Validations := [("a", [isNumberC])]

/-- A one-field validator whose single field delegates to the two-field
inner validator `innerV`. -/
def outerV : Validations := [("item", [delegC])]

/-- An input whose single declared field holds an object failing both
fields of `innerV`. -/
def nestedInput : JSVal :=
  .vobj [("item", .vobj [("a", .vstr "x"), ("b", .vstr "y")])]

/-- The error `validate outerV nestedInput` raises: the inner
AggregateError, relabeled by `renameChildFields` but with the message
synthesized before the relabeling. -/
def nestedRaised : JSErr :=
  .aggregateError
    "Multiple errors occured:\n- Validation failed for \"a\": x\n- Validation failed for \"b\": y"
    [.validationError "Validation failed for \"item.a\": x" "item.a"
       (.vstr "x"),
     .validationError "Validation failed for \"item.b\": y" "item.b"
       (.vstr "y")]

/-! ### Observers used to state the claims -/

/-- Whether a raised value is an AggregateError. -/
def isAggErrB : JSErr → Bool
  | .aggregateError _ _ => true
  | _ => false

/-- Whether a raised value is a ValidationError (a Field Error). -/
def isVErrB : JSErr → Bool
  | .validationError _ _ _ => true
  | _ => false

/-- The `field` of a raised ValidationError, or the empty string. -/
def errFieldOf : JSErr → String
  | .validationError _ f _ => f
  | _ => ""

/-- The inner error count of a raised AggregateError. -/
def aggLen : JSErr → Nat
  | .aggregateError _ es => es.length
  | _ => 0

/-- The inner errors of an AggregateError. -/
def aggErrsOf : JSErr → List JSErr
  | .aggregateError _ es => es
  | _ => []

mutual

/-- The `field` labels of every ValidationError nested anywhere inside
an error, in traversal order. -/
def veFields : JSErr → List String
  | .validationError _ f _ => [f]
  | .aggregateError _ es => veFieldsList es
  | _ => []

/-- `veFields` concatenated over a list of errors. -/
def veFieldsList : List JSErr → List String
  | [] => []
  | e :: rest => veFields e ++ veFieldsList rest

end

/-- The nested ValidationError field labels of a validate outcome. -/
def resVeFields : Except JSErr JSVal → List String
  | .error e => veFields e
  | .ok _ => []

mutual

/-- The messages of the non-aggregate errors nested anywhere inside an
error, in traversal order: the lines the aggregate-message synthesis
flattens. -/
def leafMsgs : JSErr → List String
  | .aggregateError _ es => leafMsgsList es
  | e => [errMsgStr e]

/-- `leafMsgs` concatenated over a list of errors. -/
def leafMsgsList : List JSErr → List String
  | [] => []
  | e :: rest => leafMsgs e ++ leafMsgsList rest

end

mutual

/-- Every AggregateError nested inside the error has a non-empty error
list (true of every aggregate the engine constructs). -/
def noEmptyAgg : JSErr → Bool
  | .aggregateError _ es => !es.isEmpty && noEmptyAggList es
  | _ => true

/-- `noEmptyAgg` over a list of errors. -/
def noEmptyAggList : List JSErr → Bool
  | [] => true
  | e :: rest => noEmptyAgg e && noEmptyAggList rest

end

/-- Number of positions at which `pat` occurs in `s`. -/
def countSub (pat : List Char) : List Char → Nat
  | [] => 0
  | c :: rest => (if isPre pat (c :: rest) then 1 else 0) + countSub pat rest

/-- The characters of the multiple-errors header (without the trailing
newline and dash). -/
def headerChars : List Char := "Multiple errors occured:".data

/-- How many times the multiple-errors header occurs in a message. -/
def countHeader (s : String) : Nat := countSub headerChars s.data

/-! ### Lemmas about occurrence counting -/

theorem isPre_refl (p : List Char) : isPre p p = true := by
  induction p with
  | nil => rfl
  | cons a as ih => simp [isPre, ih]

theorem isPre_length : ∀ {p s : List Char}, isPre p s = true →
    p.length ≤ s.length := by
  intro p
  induction p with
  | nil => intro s _; simp
  | cons a as ih =>
    intro s h
    cases s with
    | nil => simp [isPre] at h
    | cons b bs =>
      simp only [isPre, Bool.and_eq_true] at h
      simpa using ih h.2

theorem countSub_short {p : List Char} :
    ∀ {s : List Char}, s.length < p.length → countSub p s = 0 := by
  intro s
  induction s with
  | nil => intro _; rfl
  | cons c rest ih =>
    intro h
    have hpre : isPre p (c :: rest) = false := by
      cases hfb : isPre p (c :: rest) with
      | false => rfl
      | true => exact absurd (isPre_length hfb) (by omega)
    have : rest.length < p.length := by simp at h; omega
    simp [countSub, hpre, ih this]

theorem countSub_self {p : List Char} (hp : p ≠ []) : countSub p p = 1 := by
  cases p with
  | nil => exact absurd rfl hp
  | cons c rest =>
    have h0 : countSub (c :: rest) rest = 0 := countSub_short (by simp)
    simp [countSub, isPre_refl, h0]

theorem countSub_headmiss {p c : Char} {pt s : List Char} (h : p ≠ c) :
    countSub (p :: pt) (c :: s) = countSub (p :: pt) s := by
  simp [countSub, isPre, h]

theorem isPre_nl {pat : List Char} (h : '\n' ∉ pat) :
    ∀ (a b : List Char), isPre pat (a ++ '\n' :: b) = isPre pat a := by
  induction pat with
  | nil => intro a b; rfl
  | cons p pt ih =>
    intro a b
    have hp : p ≠ '\n' := fun hc => h (by simp [hc])
    have ht : '\n' ∉ pt := fun hc => h (by simp [hc])
    cases a with
    | nil => simp [isPre, fun hc : p = '\n' => hp hc]
    | cons x a' => simp [isPre, ih ht a' b]

theorem countSub_split {pat : List Char} (h : '\n' ∉ pat) :
    ∀ (a b : List Char),
      countSub pat (a ++ '\n' :: b) =
        countSub pat a + countSub pat ('\n' :: b) := by
  intro a
  induction a with
  | nil => intro b; simp [countSub]
  | cons c a' ih =>
    intro b
    have hpre : isPre pat (c :: (a' ++ '\n' :: b)) = isPre pat (c :: a') :=
      isPre_nl h (c :: a') b
    show (if isPre pat (c :: (a' ++ '\n' :: b)) then 1 else 0)
          + countSub pat (a' ++ '\n' :: b)
        = (if isPre pat (c :: a') then 1 else 0) + countSub pat a'
          + countSub pat ('\n' :: b)
    rw [hpre, ih b, Nat.add_assoc]

theorem headerChars_ne_nil : headerChars ≠ [] := by decide

theorem headerChars_no_nl : '\n' ∉ headerChars := by decide

theorem headerChars_cons :
    headerChars = 'M' :: "ultiple errors occured:".data := by decide

theorem countSub_header_cons {c : Char} (hc : c ≠ 'M') (s : List Char) :
    countSub headerChars (c :: s) = countSub headerChars s := by
  rw [headerChars_cons]
  exact countSub_headmiss (fun h => hc h.symm)

/-! ### Lemmas about line joining -/

theorem joinDash_cons (s : String) {rest : List String} (h : rest ≠ []) :
    joinDash (s :: rest) = s ++ "\n- " ++ joinDash rest := by
  cases rest with
  | nil => exact absurd rfl h
  | cons r rs => rfl

theorem joinDash_append : ∀ {xs ys : List String}, xs ≠ [] → ys ≠ [] →
    joinDash (xs ++ ys) = joinDash xs ++ "\n- " ++ joinDash ys := by
  intro xs
  induction xs with
  | nil => intro ys h _; exact absurd rfl h
  | cons x xs' ih =>
    intro ys _ hy
    cases xs' with
    | nil => simpa using joinDash_cons x hy
    | cons z zs =>
      have hne : z :: zs ++ ys ≠ [] := by simp
      calc joinDash (x :: (z :: zs ++ ys))
          = x ++ "\n- " ++ joinDash (z :: zs ++ ys) := joinDash_cons x hne
        _ = x ++ "\n- " ++ (joinDash (z :: zs) ++ "\n- " ++ joinDash ys) := by
            rw [ih (by simp) hy]
        _ = joinDash (x :: z :: zs) ++ "\n- " ++ joinDash ys := by
            rw [joinDash_cons x (by simp : z :: zs ≠ ([] : List String))]
            simp [String.append_assoc]

theorem countSub_joinDash_zero : ∀ {leafs : List String},
    (∀ l ∈ leafs, countSub headerChars l.data = 0) →
    countSub headerChars (joinDash leafs).data = 0 := by
  intro leafs
  induction leafs with
  | nil => intro _; rfl
  | cons l rest ih =>
    intro h
    cases rest with
    | nil => simpa [joinDash] using h l (by simp)
    | cons r rs =>
      rw [joinDash_cons l (by simp)]
      have hdata : (l ++ "\n- " ++ joinDash (r :: rs)).data =
          l.data ++ '\n' :: '-' :: ' ' :: (joinDash (r :: rs)).data := by
        simp [String.data_append]
      rw [hdata,
        countSub_split headerChars_no_nl l.data
          ('-' :: ' ' :: (joinDash (r :: rs)).data),
        h l (by simp),
        countSub_header_cons (by decide),
        countSub_header_cons (by decide),
        countSub_header_cons (by decide),
        ih (fun x hx => h x (by simp [hx]))]

theorem countHeader_synth {leafs : List String}
    (h : ∀ l ∈ leafs, countSub headerChars l.data = 0) :
    countHeader ("Multiple errors occured:\n- " ++ joinDash leafs) = 1 := by
  have hlit : "Multiple errors occured:\n- ".data =
      headerChars ++ ['\n', '-', ' '] := rfl
  have hdata : ("Multiple errors occured:\n- " ++ joinDash leafs).data =
      headerChars ++ '\n' :: '-' :: ' ' :: (joinDash leafs).data := by
    rw [String.data_append, hlit, List.append_assoc]
    rfl
  rw [countHeader, hdata,
    countSub_split headerChars_no_nl headerChars
      ('-' :: ' ' :: (joinDash leafs).data),
    countSub_self headerChars_ne_nil,
    countSub_header_cons (by decide),
    countSub_header_cons (by decide),
    countSub_header_cons (by decide),
    countSub_joinDash_zero h]

/-! ### Lemmas about the aggregate-message synthesis -/

theorem setAggList_ne_nil {es : List JSErr} (h : es ≠ []) :
    setAggList es ≠ [] := by
  cases es with
  | nil => exact absurd rfl h
  | cons e rest => simp [setAggList]

mutual

theorem leafMsgs_ne_nil (e : JSErr) (h : noEmptyAgg e = true) :
    leafMsgs e ≠ [] :=
  match e with
  | .validationError _ _ _ => by simp [leafMsgs]
  | .typeError _ => by simp [leafMsgs]
  | .nullErr => by simp [leafMsgs]
  | .aggregateError m es => by
    simp only [noEmptyAgg, Bool.and_eq_true, Bool.not_eq_eq_eq_not,
      Bool.not_false, List.isEmpty_eq_false] at h
    have := leafMsgsList_ne_nil es h.2 (by simpa using h.1)
    simpa [leafMsgs] using this

theorem leafMsgsList_ne_nil (es : List JSErr) (h : noEmptyAggList es = true)
    (hne : es ≠ []) : leafMsgsList es ≠ [] :=
  match es with
  | [] => absurd rfl hne
  | e :: rest => by
    simp only [noEmptyAggList, Bool.and_eq_true] at h
    have := leafMsgs_ne_nil e h.1
    simp [leafMsgsList, this]

end

mutual

theorem setAggMsg_eq (e : JSErr) (h : noEmptyAgg e = true) :
    errMsgStr (setAggregateMessage e false) = joinDash (leafMsgs e) :=
  match e with
  | .validationError _ _ _ => rfl
  | .typeError _ => rfl
  | .nullErr => rfl
  | .aggregateError m es => by
    simp only [noEmptyAgg, Bool.and_eq_true, Bool.not_eq_eq_eq_not,
      Bool.not_false, List.isEmpty_eq_false] at h
    have hlist := setAggList_eq es h.2 (by simpa using h.1)
    show ("" ++ joinDash ((setAggList es).map errMsgStr)) = _
    rw [String.empty_append, hlist]
    rfl

theorem setAggList_eq (es : List JSErr) (h : noEmptyAggList es = true)
    (hne : es ≠ []) :
    joinDash ((setAggList es).map errMsgStr) = joinDash (leafMsgsList es) :=
  match es with
  | [] => absurd rfl hne
  | [e] => by
    simp only [noEmptyAggList, Bool.and_eq_true] at h
    have := setAggMsg_eq e h.1
    simp only [setAggList, List.map_cons, List.map_nil, leafMsgsList,
      List.append_nil]
    simpa [joinDash] using this
  | e :: r :: rs => by
    simp only [noEmptyAggList, Bool.and_eq_true] at h
    have h2 : noEmptyAggList (r :: rs) = true := by
      simp [noEmptyAggList, h.2.1, h.2.2]
    have hmapne : (setAggList (r :: rs)).map errMsgStr ≠ [] := by
      simp [setAggList_ne_nil (by simp : r :: rs ≠ ([] : List JSErr))]
    have hjoin1 : joinDash (errMsgStr (setAggregateMessage e false)
          :: (setAggList (r :: rs)).map errMsgStr)
        = errMsgStr (setAggregateMessage e false) ++ "\n- "
          ++ joinDash ((setAggList (r :: rs)).map errMsgStr) :=
      joinDash_cons _ hmapne
    have ih := setAggList_eq (r :: rs) h2 (by simp)
    have hme := setAggMsg_eq e h.1
    have hlne := leafMsgs_ne_nil e h.1
    have hlrne := leafMsgsList_ne_nil (r :: rs) h2 (by simp)
    show joinDash (errMsgStr (setAggregateMessage e false)
        :: (setAggList (r :: rs)).map errMsgStr)
      = joinDash (leafMsgs e ++ leafMsgsList (r :: rs))
    rw [hjoin1, hme, ih, joinDash_append hlne hlrne]

end

theorem setAggTop_msg (errs : List JSErr) (h : noEmptyAggList errs = true)
    (hne : errs ≠ []) :
    errMsgStr (setAggregateMessage (.aggregateError "" errs) true) =
      "Multiple errors occured:\n- " ++ joinDash (leafMsgsList errs) := by
  show ("Multiple errors occured:\n- "
      ++ joinDash ((setAggList errs).map errMsgStr)) = _
  rw [setAggList_eq errs h hne]

/-! ### Lemmas about nested-path renaming -/

mutual

theorem veFields_rename (f : String) (e : JSErr) :
    veFields (renameChild f e) =
      (veFields e).map (fun s => f ++ "." ++ s) :=
  match e with
  | .validationError m fl v => by simp [renameChild, veFields]
  | .typeError _ => rfl
  | .nullErr => rfl
  | .aggregateError m es => by
    show veFields (.aggregateError m (renameList f es)) = _
    simp only [veFields]
    exact veFieldsList_rename f es

theorem veFieldsList_rename (f : String) (es : List JSErr) :
    veFieldsList (renameList f es) =
      (veFieldsList es).map (fun s => f ++ "." ++ s) :=
  match es with
  | [] => rfl
  | e :: rest => by
    show veFields (renameChild f e) ++ veFieldsList (renameList f rest) = _
    rw [veFields_rename f e, veFieldsList_rename f rest]
    simp [veFieldsList]

end

/-! ### Lemmas about the field loop of validate -/

theorem objGet_objSet_self (fs : List (String × JSVal)) (k : String)
    (v : JSVal) : objGet (objSet fs k v) k = v := by
  induction fs with
  | nil => simp [objGet, objSet]
  | cons p rest ih =>
    by_cases h : p.1 = k
    · simp [objSet, objGet, h]
    · simp [objSet, objGet, h, ih]

theorem objGet_objSet_ne (fs : List (String × JSVal)) {k k' : String}
    (v : JSVal) (h : k ≠ k') : objGet (objSet fs k v) k' = objGet fs k' := by
  induction fs with
  | nil => simp [objGet, objSet, h]
  | cons p rest ih =>
    by_cases hp : p.1 = k
    · simp [objSet, objGet, hp, h]
    · by_cases hp' : p.1 = k'
      · simp [objSet, objGet, hp, hp', Ne.symm h]
      · simp [objSet, objGet, hp, hp', ih]

theorem pushError_acc (e : JSErr) (f : String) (v : JSVal)
    (errs : List JSErr) :
    pushError e f v errs = errs ++ pushError e f v [] := by
  cases e <;> simp [pushError]

theorem validateCore_acc (V : Validations) :
    ∀ (fs : List (String × JSVal)) (errs : List JSErr),
      validateCore V fs errs =
        ((validateCore V fs []).1, errs ++ (validateCore V fs []).2) := by
  induction V with
  | nil => intro fs errs; simp [validateCore]
  | cons p rest ih =>
    intro fs errs
    obtain ⟨field, fns⟩ := p
    show (match validateFieldRaw fns (objGet fs field) with
      | .ok c => validateCore rest
          (if isUndefV c then fs else objSet fs field c) errs
      | .error e => validateCore rest fs
          (pushError e field (objGet fs field) errs)) = _
    cases hrun : validateFieldRaw fns (objGet fs field) with
    | ok c =>
      simp only [validateCore, hrun]
      rw [ih _ errs]
    | error e =>
      simp only [validateCore, hrun]
      rw [pushError_acc, ih _ (errs ++ pushError e field (objGet fs field) []),
        ih _ (pushError e field (objGet fs field) [])]
      simp

theorem validateCore_frame (V : Validations) :
    ∀ (fs : List (String × JSVal)) (errs : List JSErr) (k : String),
      k ∉ V.map Prod.fst →
      objGet (validateCore V fs errs).1 k = objGet fs k := by
  induction V with
  | nil => intro fs errs k _; rfl
  | cons p rest ih =>
    intro fs errs k hk
    obtain ⟨field, fns⟩ := p
    simp only [List.map_cons, List.mem_cons, not_or] at hk
    cases hrun : validateFieldRaw fns (objGet fs field) with
    | ok c =>
      simp only [validateCore, hrun]
      rw [ih _ errs k hk.2]
      by_cases hc : isUndefV c
      · simp [hc]
      · simp [hc, objGet_objSet_ne fs c (fun h => hk.1 h.symm)]
    | error e =>
      simp only [validateCore, hrun]
      exact ih _ _ k hk.2

theorem validateCore_field (V : Validations) :
    ∀ (fs : List (String × JSVal)) (errs : List JSErr) (field : String)
      (fns : List Checker),
      (V.map Prod.fst).Nodup → (field, fns) ∈ V →
      objGet (validateCore V fs errs).1 field =
        (match validateFieldRaw fns (objGet fs field) with
         | .ok c => if isUndefV c then objGet fs field else c
         | .error _ => objGet fs field) := by
  induction V with
  | nil => intro fs errs field fns _ hmem; exact absurd hmem (by simp)
  | cons p rest ih =>
    intro fs errs field fns hnd hmem
    obtain ⟨f0, fns0⟩ := p
    simp only [List.map_cons, List.nodup_cons] at hnd
    rcases List.mem_cons.mp hmem with hhd | htl
    · injection hhd with h1 h2
      subst h1
      subst h2
      cases hrun : validateFieldRaw fns (objGet fs field) with
      | ok c =>
        simp only [validateCore, hrun]
        rw [validateCore_frame rest _ errs field hnd.1]
        by_cases hc : isUndefV c
        · simp [hc]
        · simp [hc, objGet_objSet_self]
      | error e =>
        simp only [validateCore, hrun]
        rw [validateCore_frame rest _ _ field hnd.1]
    · have hfne : field ≠ f0 := by
        intro heq
        exact hnd.1 (List.mem_map.mpr ⟨(field, fns), htl, heq⟩)
      cases hrun : validateFieldRaw fns0 (objGet fs f0) with
      | ok c =>
        simp only [validateCore, hrun]
        by_cases hc : isUndefV c
        · simp only [hc, if_pos]
          exact ih _ errs field fns hnd.2 htl
        · simp only [hc, if_neg, Bool.false_eq_true, not_false_iff]
          rw [ih _ errs field fns hnd.2 htl,
            objGet_objSet_ne fs c (fun h => hfne h.symm)]
      | error e =>
        simp only [validateCore, hrun]
        exact ih _ _ field fns hnd.2 htl

theorem pushError_len (e : JSErr) (f : String) (v : JSVal) :
    (pushError e f v []).length = 1 := by
  cases e <;> simp [pushError]

theorem validateCore_ok_run (V : Validations) :
    ∀ (fs : List (String × JSVal)) (field : String) (fns : List Checker),
      (V.map Prod.fst).Nodup → (field, fns) ∈ V →
      (validateCore V fs []).2 = [] →
      ∃ c, validateFieldRaw fns (objGet fs field) = .ok c := by
  induction V with
  | nil => intro fs field fns _ hmem _; exact absurd hmem (by simp)
  | cons p rest ih =>
    intro fs field fns hnd hmem hempty
    obtain ⟨f0, fns0⟩ := p
    simp only [List.map_cons, List.nodup_cons] at hnd
    cases hrun : validateFieldRaw fns0 (objGet fs f0) with
    | ok c =>
      rcases List.mem_cons.mp hmem with hhd | htl
      · injection hhd with h1 h2
        subst h1
        subst h2
        exact ⟨c, hrun⟩
      · have hfne : field ≠ f0 := by
          intro heq
          exact hnd.1 (List.mem_map.mpr ⟨(field, fns), htl, heq⟩)
        have hempty' : (validateCore rest
            (if isUndefV c then fs else objSet fs f0 c) []).2 = [] := by
          simpa only [validateCore, hrun] using hempty
        have hslot : objGet (if isUndefV c then fs else objSet fs f0 c) field
            = objGet fs field := by
          by_cases hc : isUndefV c
          · simp [hc]
          · simp [hc, objGet_objSet_ne fs c (fun h => hfne h.symm)]
        obtain ⟨c', hc'⟩ := ih _ field fns hnd.2 htl hempty'
        exact ⟨c', by rwa [hslot] at hc'⟩
    | error e =>
      exfalso
      have : (validateCore rest fs
          (pushError e f0 (objGet fs f0) [])).2 = [] := by
        simpa only [validateCore, hrun] using hempty
      rw [validateCore_acc] at this
      have hlen := congrArg List.length this
      simp [pushError_len] at hlen

theorem cast_ok_iff (obj : JSVal) (errors : List JSErr) (v : JSVal) :
    castV obj errors = .ok v ↔ errors = [] ∧ v = obj := by
  cases errors with
  | nil => simp [castV, eq_comm]
  | cons e rest =>
    cases rest with
    | nil => simp [castV]
    | cons r rs =>
      have h1 : ¬((e :: r :: rs).length = 1) := by simp
      have h2 : 1 < (e :: r :: rs).length := by simp
      simp [castV, h1, h2]

theorem cast_err_single (obj : JSVal) (e : JSErr) :
    castV obj [e] = .error e := by
  simp [castV]

theorem cast_err_many (obj : JSVal) (errs : List JSErr)
    (h : 1 < errs.length) :
    castV obj errs =
      .error (setAggregateMessage (.aggregateError "" errs) true) := by
  have h1 : ¬(errs.length = 1) := by omega
  simp [castV, h1, h]

theorem validate_vobj (V : Validations) (fs : List (String × JSVal)) :
    validate V (.vobj fs) =
      castV (.vobj (validateCore V fs []).1) (validateCore V fs []).2 := rfl

theorem validate_ok_shape (V : Validations) (obj v : JSVal)
    (h : validate V obj = .ok v) :
    ∃ fs, obj = .vobj fs ∧ v = .vobj (validateCore V fs []).1
      ∧ (validateCore V fs []).2 = [] := by
  cases obj with
  | vobj fields =>
    rw [validate_vobj] at h
    obtain ⟨hb, hv⟩ := (cast_ok_iff _ _ _).mp h
    exact ⟨fields, rfl, hv, hb⟩
  | vnull => exact absurd h (by simp [validate, assertNonNullObject])
  | vundefined => exact absurd h (by simp [validate, assertNonNullObject])
  | vbool b => exact absurd h (by simp [validate, assertNonNullObject])
  | vnum n => exact absurd h (by simp [validate, assertNonNullObject])
  | vstr s => exact absurd h (by simp [validate, assertNonNullObject])
  | varr es => exact absurd h (by simp [validate, assertNonNullObject])

/-! ### The claims -/

/-- C1: the claim says `matchEveryOrFail` on an array in which two or
more elements fail must raise an AggregateError bundling every failing
element's error.  The code (and the doc comment of `aggregateErrors`,
which promises to catch the errors and throw them all at the end)
intends exactly that, but the single try/catch is wrapped around the
whole `forEach`, so the loop aborts at the first raising element: on an
array whose two elements both fail validation, the raised AggregateError
bundles only the first element's error. -/
theorem c1_matchEveryOrFail_keeps_only_first_failure :
    matchObj numV (.vobj [("a", .vstr "x")]) = false ∧
    matchObj numV (.vobj [("a", .vstr "y")]) = false ∧
    matchEveryOrFail numV
        [.vobj [("a", .vstr "x")], .vobj [("a", .vstr "y")]]
      = .error (.aggregateError ""
          [.validationError "Validation failed for \"a\": x" "a"
            (.vstr "x")]) ∧
    aggLen (.aggregateError ""
      [.validationError "Validation failed for \"a\": x" "a"
        (.vstr "x")]) = 1 :=
  ⟨rfl, rfl, rfl, rfl⟩

/-- C2 (counterexample): when exactly one declared field fails and the
failure the field's checker propagated is itself an AggregateError from
a nested validator, `validate` raises that AggregateError, not a Field
Error: the claim's "raises that single Field Error" is false for this
input. -/
theorem c2_single_collected_error_is_not_a_field_error :
    (validateCore outerV
        [("item", .vobj [("a", .vstr "x"), ("b", .vstr "y")])] []).2.length
      = 1 ∧
    validate outerV nestedInput = .error nestedRaised ∧
    isVErrB nestedRaised = false ∧
    isAggErrB nestedRaised = true :=
  ⟨rfl, rfl, rfl, rfl⟩

/-- C2 (amended): after all declared fields are processed, zero
collected errors returns the possibly mutated candidate; exactly one
collected error is raised directly and unwrapped (a Field Error when the
field's failure was not itself an aggregate, otherwise the relabeled
AggregateError); two or more collected errors are raised as one
AggregateError with the synthesized multi-error message. -/
theorem c2_amended_validate_outcome (V : Validations)
    (fs : List (String × JSVal)) :
    ((validateCore V fs []).2 = [] →
      validate V (.vobj fs) = .ok (.vobj (validateCore V fs []).1)) ∧
    (∀ e, (validateCore V fs []).2 = [e] →
      validate V (.vobj fs) = .error e) ∧
    (1 < (validateCore V fs []).2.length →
      validate V (.vobj fs) = .error
        (setAggregateMessage
          (.aggregateError "" (validateCore V fs []).2) true)) := by
  refine ⟨fun h => ?_, fun e h => ?_, fun h => ?_⟩
  · rw [validate_vobj]
    exact (cast_ok_iff _ _ _).mpr ⟨h, rfl⟩
  · rw [validate_vobj, h, cast_err_single]
  · rw [validate_vobj, cast_err_many _ _ h]

/-- C2 (witness): the amended outcome rule applied to the two-field
validator on an input failing both fields. -/
theorem c2_amended_validate_outcome_witness :
    validate innerV (.vobj [("a", .vstr "x"), ("b", .vstr "y")]) =
      .error (setAggregateMessage
        (.aggregateError ""
          (validateCore innerV [("a", .vstr "x"), ("b", .vstr "y")] []).2)
        true) :=
  (c2_amended_validate_outcome innerV
    [("a", .vstr "x"), ("b", .vstr "y")]).2.2 (by decide)

/-- C5: a `null`, array, or non-object candidate makes `validate` raise
the fixed input-shape TypeError at once, for every validation spec (so
before any field pipeline can run), and the raised error is the bare
TypeError, never collected into an aggregate. -/
theorem c5_input_shape_error (V : Validations) :
    validate V .vnull = .error (.typeError "Unexpected null") ∧
    (∀ es, validate V (.varr es) =
      .error (.typeError "Cannot be an array")) ∧
    (∀ b, validate V (.vbool b) = .error (.typeError "Not an object")) ∧
    (∀ n, validate V (.vnum n) = .error (.typeError "Not an object")) ∧
    (∀ s, validate V (.vstr s) = .error (.typeError "Not an object")) ∧
    validate V .vundefined = .error (.typeError "Not an object") :=
  ⟨rfl, fun _ => rfl, fun _ => rfl, fun _ => rfl, fun _ => rfl, rfl⟩

/-- C3 (counterexample): the claim says a failure at depth two in a
recursively nested validator yields a Field Error whose `field` is the
dot-joined path `tail.head`.  But when exactly one inner field fails the
nested validator raises a bare Field Error, and `pushError` at the
enclosing level overwrites its `field` with the enclosing field name
alone: the list validator on `{head: 4, tail: {head: "4"}}` raises a
Field Error with field `tail`, not `tail.head`. -/
theorem c3_single_nested_failure_path_overwritten :
    validate (listValidations 4)
        (.vobj [("head", .vnum 4), ("tail", .vobj [("head", .vstr "4")])])
      = .error (.validationError "Validation failed for \"head\": 4"
          "tail" (.vstr "4")) ∧
    "tail" ≠ "tail.head" :=
  ⟨rfl, by decide⟩

/-- C3 (amended): when a nested failure propagates as an AggregateError,
the enclosing `pushError` dot-prepends the enclosing field name to the
`field` of every Field Error nested at any depth inside it, so failures
that cross every level inside aggregates carry the full root-to-leaf
dotted path (the spec's three-level example yields `tail.tail.head`);
but a failure that crosses a level as a bare Field Error has its `field`
overwritten with the enclosing field name alone. -/
theorem c3_amended_nested_paths :
    (∀ (f : String) (e : JSErr),
      veFields (renameChild f e) =
        (veFields e).map (fun s => f ++ "." ++ s)) ∧
    (∀ (f m : String) (es : List JSErr) (val : JSVal) (errs : List JSErr),
      pushError (.aggregateError m es) f val errs =
        errs ++ [.aggregateError m (renameList f es)]) ∧
    (∀ (f fl m : String) (v val : JSVal) (errs : List JSErr),
      pushError (.validationError m fl v) f val errs =
        errs ++ [.validationError m f v]) ∧
    resVeFields (validate (listValidations 4) input3) =
      ["head", "tail.head", "tail.tail.head", "tail.tail.tail"] :=
  ⟨veFields_rename, fun _ _ _ _ _ => rfl, fun _ _ _ _ _ _ => rfl, rfl⟩

/-- C4 (counterexample): when a single collected error is an
AggregateError propagated from a nested validator, `validate` raises it
with the message synthesized at the nested level, before the path
relabeling: the header occurs exactly once, but the message lines are
not the joined messages of the (relabeled) failures the aggregate now
carries, contradicting the claim's joined-lines part. -/
theorem c4_propagated_aggregate_message_not_resynthesized :
    validate outerV nestedInput = .error nestedRaised ∧
    countHeader (errMsgStr nestedRaised) = 1 ∧
    errMsgStr nestedRaised ≠
      "Multiple errors occured:\n- "
        ++ joinDash (leafMsgsList (aggErrsOf nestedRaised)) :=
  ⟨rfl, by decide, by decide⟩

/-- C4 (amended): when `validate` collects two or more errors it raises
an AggregateError whose synthesized message is the flattened messages of
the underlying non-aggregate failures joined as lines behind a single
multiple-errors header; provided no flattened failure message itself
contains the header text, the header occurs in the synthesized message
exactly once, regardless of aggregate nesting depth.  When exactly one
collected error remains (possibly an aggregate from a nested validator)
it is raised with its message unchanged. -/
theorem c4_amended_header_once (V : Validations)
    (fs : List (String × JSVal)) :
    (1 < (validateCore V fs []).2.length →
      noEmptyAggList (validateCore V fs []).2 = true →
      (∀ l ∈ leafMsgsList (validateCore V fs []).2,
        countSub headerChars l.data = 0) →
      ∃ E, validate V (.vobj fs) = .error E ∧
        errMsgStr E = "Multiple errors occured:\n- "
          ++ joinDash (leafMsgsList (validateCore V fs []).2) ∧
        countHeader (errMsgStr E) = 1) ∧
    (∀ e, (validateCore V fs []).2 = [e] →
      validate V (.vobj fs) = .error e) := by
  constructor
  · intro hlen hagg hleaf
    have hne : (validateCore V fs []).2 ≠ [] := by
      intro h
      rw [h] at hlen
      simp at hlen
    refine ⟨setAggregateMessage
        (.aggregateError "" (validateCore V fs []).2) true, ?_, ?_, ?_⟩
    · rw [validate_vobj, cast_err_many _ _ hlen]
    · exact setAggTop_msg _ hagg hne
    · rw [setAggTop_msg _ hagg hne]
      exact countHeader_synth hleaf
  · intro e h
    rw [validate_vobj, h, cast_err_single]

/-- C4 (witness): the amended header rule applied to the two-field
validator on an input failing both fields. -/
theorem c4_amended_header_once_witness :
    ∃ E, validate innerV (.vobj [("a", .vstr "x"), ("b", .vstr "y")])
        = .error E ∧
      errMsgStr E = "Multiple errors occured:\n- "
        ++ joinDash (leafMsgsList
          (validateCore innerV [("a", .vstr "x"), ("b", .vstr "y")] []).2) ∧
      countHeader (errMsgStr E) = 1 :=
  (c4_amended_header_once innerV
      [("a", .vstr "x"), ("b", .vstr "y")]).1
    (by decide) (by decide) (by decide)

/-- C6 (counterexample): the claim says any checker result other than
`true`, a Promise, or a conversion envelope (including `false`) aborts
the pipeline by raising the unlabeled sentinel.  A returned `null` has
`typeof null === 'object'`, so the conversion-envelope probe reads a
property of `null` and aborts by raising a labeled TypeError instead of
the sentinel. -/
theorem c6_null_result_raises_type_error_not_sentinel :
    validateFieldRaw [retNullC] (.vnum 0)
      = .error (.typeError "Cannot read properties of null") ∧
    (Except.error (.typeError "Cannot read properties of null")
        : Except JSErr JSVal) ≠ .error .nullErr :=
  ⟨rfl, by
    intro h
    injection h with h'
    exact JSErr.noConfusion h'⟩

/-- C6 (amended): each checker is applied in order to the current value;
`true` and an unresolved Promise continue with the value unchanged (the
Promise is never awaited), a conversion envelope replaces the value with
its converted slot and continues, a raised error propagates, a returned
`null` aborts by raising the TypeError of the conversion-envelope probe,
and every other result (including `false`) aborts by raising the
unlabeled sentinel. -/
theorem c6_amended_pipeline_step (fn : Checker) (rest : List Checker)
    (x conv : JSVal) :
    (fn x = .retPromise →
      validateFieldGo (fn :: rest) x conv = validateFieldGo rest x conv) ∧
    (fn x = .ret (.vbool true) →
      validateFieldGo (fn :: rest) x conv = validateFieldGo rest x conv) ∧
    (∀ fsv, fn x = .ret (.vobj fsv) →
      objGet fsv "isConversion" = .vbool true →
      validateFieldGo (fn :: rest) x conv =
        validateFieldGo rest (objGet fsv "converted")
          (objGet fsv "converted")) ∧
    (fn x = .ret .vnull →
      validateFieldGo (fn :: rest) x conv =
        .error (.typeError "Cannot read properties of null")) ∧
    (∀ v, fn x = .ret v → isTrueV v = false →
      probeConversion v = .ok none →
      validateFieldGo (fn :: rest) x conv = .error .nullErr) ∧
    (∀ e, fn x = .thrown e →
      validateFieldGo (fn :: rest) x conv = .error e) := by
  refine ⟨fun h => ?_, fun h => ?_, fun fsv h hconv => ?_, fun h => ?_,
    fun v h htrue hprobe => ?_, fun e h => ?_⟩
  · simp [validateFieldGo, stepChecker, h]
  · simp [validateFieldGo, stepChecker, h, isTrueV]
  · simp [validateFieldGo, stepChecker, h, isTrueV, probeConversion, hconv]
  · simp [validateFieldGo, stepChecker, h, isTrueV, probeConversion]
  · simp [validateFieldGo, stepChecker, h, htrue, hprobe]
  · simp [validateFieldGo, stepChecker, h]

/-- C6 (witness): the amended step rule applied to `isNumber` on a
string: a `false` result raises the unlabeled sentinel. -/
theorem c6_amended_pipeline_step_witness :
    validateFieldGo [isNumberC] (.vstr "q") .vundefined = .error .nullErr :=
  (c6_amended_pipeline_step isNumberC [] (.vstr "q") .vundefined).2.2.2.2.1
    (.vbool false) rfl rfl rfl

/-- C7 (counterexample): the claim says that after a successful
`validate`, a field whose pipeline performed a conversion holds the
final converted value.  A conversion envelope may carry `undefined` as
its converted value; the write-back guard `converted !== undefined`
then skips the write, so the slot keeps its old value, which differs
from the final converted value. -/
theorem c7_conversion_to_undefined_not_written :
    convUndefC (.vnum 5)
      = .ret (.vobj [("isConversion", .vbool true),
          ("converted", .vundefined)]) ∧
    validateFieldRaw [convUndefC] (.vnum 5) = .ok .vundefined ∧
    validate [("a", [convUndefC])] (.vobj [("a", .vnum 5)])
      = .ok (.vobj [("a", .vnum 5)]) ∧
    (JSVal.vnum 5) ≠ .vundefined :=
  ⟨rfl, rfl, rfl, fun h => JSVal.noConfusion h⟩

/-- C7 (amended): after a successful `validate`, each declared field's
slot equals its pipeline's final converted value unless that value is
`undefined` (either because no conversion occurred or because the last
conversion produced `undefined`), in which case the slot is unchanged,
preserving identity. -/
theorem c7_amended_slot_after_success (V : Validations)
    (fs : List (String × JSVal)) (field : String) (fns : List Checker)
    (hnd : (V.map Prod.fst).Nodup) (hmem : (field, fns) ∈ V)
    (v : JSVal) (hok : validate V (.vobj fs) = .ok v) :
    ∃ c, validateFieldRaw fns (objGet fs field) = .ok c ∧
      v = .vobj (validateCore V fs []).1 ∧
      objGet (validateCore V fs []).1 field =
        (if isUndefV c then objGet fs field else c) := by
  rw [validate_vobj] at hok
  obtain ⟨hempty, hv⟩ := (cast_ok_iff _ _ _).mp hok
  obtain ⟨c, hc⟩ := validateCore_ok_run V fs field fns hnd hmem hempty
  refine ⟨c, hc, hv, ?_⟩
  rw [validateCore_field V fs [] field fns hnd hmem, hc]

/-- C7 (witness): the amended slot rule applied to the converting
validator on `{a: "4"}`: the slot holds the converted number. -/
theorem c7_amended_slot_after_success_witness :
    ∃ c, validateFieldRaw [convNumC]
        (objGet [("a", .vstr "4")] "a") = .ok c ∧
      (JSVal.vobj
          (validateCore [("a", [convNumC])] [("a", .vstr "4")] []).1)
        = .vobj (validateCore [("a", [convNumC])] [("a", .vstr "4")] []).1 ∧
      objGet (validateCore [("a", [convNumC])] [("a", .vstr "4")] []).1 "a" =
        (if isUndefV c then objGet [("a", .vstr "4")] "a" else c) :=
  c7_amended_slot_after_success [("a", [convNumC])] [("a", .vstr "4")]
    "a" [convNumC] (by simp) (List.mem_cons_self _ _) _ rfl

/-- C8: `matchObj` is a total boolean function (so `match` never
raises); it returns false whenever `validate` raises, false whenever the
input is not a non-null structural object or array (the guard
`typeof obj !== 'object' || obj === null`), and true whenever `validate`
succeeds. -/
theorem c8_match_absorbs_everything (V : Validations) (obj : JSVal) :
    (∀ e, validate V obj = .error e → matchObj V obj = false) ∧
    ((∀ fs, obj ≠ .vobj fs) → (∀ es, obj ≠ .varr es) →
      matchObj V obj = false) ∧
    (∀ v, validate V obj = .ok v → matchObj V obj = true) := by
  refine ⟨fun e he => ?_, fun hobj harr => ?_, fun v hv => ?_⟩
  · cases obj <;> simp [matchObj, he]
  · cases obj with
    | vobj fields => exact absurd rfl (hobj fields)
    | varr es => exact absurd rfl (harr es)
    | _ => rfl
  · obtain ⟨fs, hfs, hshape, _⟩ := validate_ok_shape V obj v hv
    subst hfs
    simp [matchObj, hv, hshape, jsTruthy]

/-- C8 (witness): the absorption rule applied to a failing input:
`matchObj` returns false. -/
theorem c8_match_absorbs_everything_witness :
    matchObj numV (.vobj [("a", .vstr "x")]) = false :=
  (c8_match_absorbs_everything numV (.vobj [("a", .vstr "x")])).1
    (.validationError "Validation failed for \"a\": x" "a" (.vstr "x")) rfl

/-- C9: when a field's pipeline raises at any checker, the candidate's
slot for that field is unchanged after the field loop: intermediate
converted values produced by earlier checkers of the failing pipeline
are discarded, never written back. -/
theorem c9_failing_pipeline_slot_unchanged (V : Validations)
    (fs : List (String × JSVal)) (field : String) (fns : List Checker)
    (hnd : (V.map Prod.fst).Nodup) (hmem : (field, fns) ∈ V)
    (e : JSErr)
    (hfail : validateFieldRaw fns (objGet fs field) = .error e) :
    objGet (validateCore V fs []).1 field = objGet fs field := by
  rw [validateCore_field V fs [] field fns hnd hmem, hfail]

/-- C9 (witness): a pipeline that converts `"4"` to the number `4` and
then fails leaves the slot holding the original string. -/
theorem c9_failing_pipeline_slot_unchanged_witness :
    objGet (validateCore [("a", [convNumC, alwaysFalseC])]
      [("a", .vstr "4")] []).1 "a" = .vstr "4" :=
  c9_failing_pipeline_slot_unchanged [("a", [convNumC, alwaysFalseC])]
    [("a", .vstr "4")] "a" [convNumC, alwaysFalseC] (by simp)
    (List.mem_cons_self _ _) .nullErr rfl

/-- C10 (counterexample): the claim says every other field whose
pipeline succeeded with a conversion has its converted value written
into the candidate when `validate` raises.  A successful pipeline whose
final conversion produced `undefined` is skipped by the write-back
guard: with field `a` converting to `undefined` and field `b` failing,
`validate` raises but slot `a` still holds the original number, not the
converted value. -/
theorem c10_undefined_conversion_not_written_on_failure :
    validateFieldRaw [convUndefC] (.vnum 5) = .ok .vundefined ∧
    validate [("a", [convUndefC]), ("b", [isNumberC])]
        (.vobj [("a", .vnum 5), ("b", .vstr "x")])
      = .error (.validationError "Validation failed for \"b\": x" "b"
          (.vstr "x")) ∧
    objGet (validateCore [("a", [convUndefC]), ("b", [isNumberC])]
      [("a", .vnum 5), ("b", .vstr "x")] []).1 "a" = .vnum 5 ∧
    (JSVal.vnum 5) ≠ .vundefined :=
  ⟨rfl, rfl, rfl, fun h => JSVal.noConfusion h⟩

/-- C10 (amended): a field whose pipeline succeeds with a final
converted value other than `undefined` has that value written into the
candidate by the field loop, regardless of what happens to the other
fields — in particular a later `validate` failure does not roll the
write back. -/
theorem c10_amended_no_rollback (V : Validations)
    (fs : List (String × JSVal)) (field : String) (fns : List Checker)
    (hnd : (V.map Prod.fst).Nodup) (hmem : (field, fns) ∈ V)
    (c : JSVal)
    (hrun : validateFieldRaw fns (objGet fs field) = .ok c)
    (hc : isUndefV c = false) :
    objGet (validateCore V fs []).1 field = c := by
  rw [validateCore_field V fs [] field fns hnd hmem, hrun]
  simp [hc]

/-- C10 (witness): with field `a` converting `"4"` to the number `4`
and field `b` failing, the converted number is in slot `a` after the
field loop even though the call raises. -/
theorem c10_amended_no_rollback_witness :
    objGet (validateCore [("a", [convNumC]), ("b", [isNumberC])]
      [("a", .vstr "4"), ("b", .vstr "x")] []).1 "a" = .vnum 4 :=
  c10_amended_no_rollback [("a", [convNumC]), ("b", [isNumberC])]
    [("a", .vstr "4"), ("b", .vstr "x")] "a" [convNumC] (by simp)
    (List.mem_cons_self _ _) (.vnum 4) rfl rfl

end TsValidate
